import Mathlib

/-!
Verification of the seo-checker rule-evaluation engine.

The embedding follows the CLI source (the single main script): the check
registry entries, the single-pass scan loop over files (`files.forEach`
with a `tests.forEach` body), and the grouped report renderer.  Files are
modelled as pairs of a path and an optional raw content (`none` models a
read failure of `fs.readFileSync`, which the source catches and skips).
External collaborators (the glob walker, the ignore matcher, the Cheerio
markup parser and the regex engine for checks no claim depends on) are
modelled as parameters, per the contracts the source relies on.
-/

/-! ### String helpers mirroring the JS library calls the source makes -/

/-- Case-insensitive character comparison, as the `i` regex flag gives. -/
def charLowerEq (a b : Char) : Bool := a.toLower == b.toLower

/-- Case-insensitive list-prefix match. -/
def matchesCI : List Char → List Char → Bool
  | [], _ => true
  | _ :: _, [] => false
  | p :: ps, c :: cs => charLowerEq p c && matchesCI ps cs

/-- A word character in the sense of the regex `\b` boundary: `[A-Za-z0-9_]`. -/
def isWordChar (c : Char) : Bool := c.isAlphanum || c == '_'

/-- The literal part of the pattern `/<frameset\b/i`. -/
def framesetPat : List Char := '<' :: ('f' :: ('r' :: ('a' :: ('m' :: ('e' :: ('s' :: ('e' :: ('t' :: []))))))))

/-- Does the pattern `/<frameset\b/i` match at the head of this suffix? -/
def framesetHere (l : List Char) : Bool :=
  matchesCI framesetPat l &&
    (match l.drop framesetPat.length with
     | [] => true
     | c :: _ => !(isWordChar c))

/-- The JS test `/<frameset\b/i.test(content)`: the pattern matches at some
position of the content. -/
def framesetRegex (s : String) : Bool :=
  s.toList.tails.any framesetHere

/-- `path.basename` for POSIX paths: the part after the last slash. -/
def basenameAux : List Char → List Char → List Char
  | acc, [] => acc
  | acc, c :: cs => if c == '/' then basenameAux [] cs else basenameAux (acc ++ [c]) cs

/-- `path.basename(file)`. -/
def basename (p : String) : String := String.mk (basenameAux [] p.toList)

/-- Replace the first occurrence of `pat` by `repl`, as JS
`String.prototype.replace` with a string pattern does. -/
def replaceFirstChars (pat repl : List Char) : List Char → List Char
  | [] => []
  | c :: cs =>
      if pat.isPrefixOf (c :: cs) then repl ++ (c :: cs).drop pat.length
      else c :: replaceFirstChars pat repl cs

/-- `s.replace(pat, repl)` for a string pattern (first occurrence only). -/
def replaceFirst (s pat repl : String) : String :=
  String.mk (replaceFirstChars pat.toList repl.toList s.toList)

/-! ### Data model: the check registry entries and their mutable state -/

/-- One entry of the `tests` array.  Exactly one of the three strategy
fields is populated in the source registry; the engine dispatches on
whichever is present, in the source's order (aggregate, test, regex).
The regex and callback values are Lean functions standing for the JS
regex engine and the JS closures. -/
structure Check where
  name : String
  group : String
  failText : String
  regex : Option (String → Bool) := none
  test : Option (String → String → Bool) := none
  aggregate : Option (String → String → Bool) := none

/-- The mutable per-check evaluation state the scan loop updates:
`test.hasPassed` and `test.failedFiles` start out absent (JS `undefined`),
modelled as `none`. -/
structure CheckState where
  check : Check
  hasPassed : Option Bool := none
  failedFiles : Option (List String) := none

/-- State of a check before any file is scanned. -/
def CheckState.init (c : Check) : CheckState := { check := c }

/-- JS truthiness of the `hasPassed` field (`undefined` and `false` are
falsy): the check counts as passed iff `hasPassed` is literally `true`. -/
def truthy (s : CheckState) : Bool := s.hasPassed.getD false

/-! ### Evaluation engine: the `tests.forEach` body and the file scan -/

/-- The body of `tests.forEach` for one (file, content) pair: skip
permanently passed non-aggregate tests; run an aggregate test on every
file, lazily initialising its state; otherwise dispatch to the callback
or the regex and overwrite `hasPassed` with the fresh result. -/
def applyCheck (file content : String) (s : CheckState) : CheckState :=
  if s.hasPassed = some true ∧ s.check.aggregate.isNone = true then s
  else
    match s.check.aggregate with
    | some agg =>
        let s1 := if s.failedFiles.isNone = true then
            { s with hasPassed := some true, failedFiles := some [] } else s
        if agg file content then
          { s1 with hasPassed := some false,
                    failedFiles := some (s1.failedFiles.getD [] ++ [file]) }
        else s1
    | none =>
        match s.check.test with
        | some t => { s with hasPassed := some (t file content) }
        | none =>
            match s.check.regex with
            | some r => { s with hasPassed := some (r content) }
            | none => s

/-- One iteration of `files.forEach`: a file whose read failed (content
`none`) is skipped by the `catch { return }`, every other file is pushed
through all checks. -/
def scanStep (states : List CheckState) (f : String × Option String) : List CheckState :=
  match f.2 with
  | none => states
  | some content => states.map (applyCheck f.1 content)

/-- The whole scan loop over the file list. -/
def scanFiles (states : List CheckState) (files : List (String × Option String)) : List CheckState :=
  files.foldl scanStep states

/-- Fresh states for the registry. -/
def initStates (tests : List Check) : List CheckState := tests.map CheckState.init

/-- The scan of a single check from an arbitrary starting state (the same
fold as `scanFiles`, viewed one check at a time). -/
def runCheckFrom (files : List (String × Option String)) (s : CheckState) : CheckState :=
  files.foldl (fun s f =>
    match f.2 with
    | none => s
    | some content => applyCheck f.1 content s) s

/-- The scan of a single check from its initial state. -/
def runCheck (files : List (String × Option String)) (c : Check) : CheckState :=
  runCheckFrom files (CheckState.init c)

/-- The files the scan actually processes: those whose read succeeded,
paired with their content, in scan order. -/
def readables (files : List (String × Option String)) : List (String × String) :=
  files.filterMap (fun f => f.2.map (fun content => (f.1, content)))

/-- The fold of the `tests.forEach` body over already-read files. -/
def scanRead (pairs : List (String × String)) (s : CheckState) : CheckState :=
  pairs.foldl (fun s p => applyCheck p.1 p.2 s) s

/-- The per-file result of a non-aggregate check's strategy, following the
source's dispatch order (callback before regex); a check with no strategy
field never produces a positive signal. -/
def strategyEval (c : Check) (file content : String) : Bool :=
  match c.test with
  | some t => t file content
  | none =>
      match c.regex with
      | some r => r content
      | none => false

/-! ### The concrete registry entries the claims name -/

/-- The `Frameset` entry: a callback testing for the absence of a
frameset tag in the file content. -/
def framesetCheck : Check :=
  { name := "Frameset", group := "Misc", failText := "Framesets are present!",
    test := some (fun _file content => !framesetRegex content) }

/-- The `Robots.txt` entry: a callback on the path alone. -/
def robotsTxtCheck : Check :=
  { name := "Robots.txt", group := "Misc", failText := "No robots.txt found!",
    test := some (fun file _content => basename file == "robots.txt") }

/-- The loop body of the `Alt-Tags` aggregate over the alt attributes of
the file's `img` elements (`$("img").each` with the early-out guard):
once `hasMissingAlt` is true it stays, otherwise it is overwritten with
whether the current image's alt is absent or the empty string. -/
def altTagsOffending (alts : List (Option String)) : Bool :=
  alts.foldl (fun hasMissingAlt alt =>
    if hasMissingAlt then hasMissingAlt
    else alt == none || alt == some "") false

/-- The `Alt-Tags` entry.  The Cheerio collaborator (`Cheerio.load` plus
the `img` selection) is modelled as the parameter `imgAlts`, giving for a
raw content the list of alt attributes of its image elements, per the
markup-parsing contract the source relies on. -/
def altTagsCheck (imgAlts : String → List (Option String)) : Check :=
  { name := "Alt-Tags", group := "Images", failText := "Missing alt text in: \x7bfile\x7d",
    aggregate := some (fun _file content => altTagsOffending (imgAlts content)) }

/-- A registry entry carrying only a regex, as the seventeen pattern
checks of the source do; the matcher stands for the JS regex engine. -/
def patternCheck (name group failText : String) (regex : String → Bool) : Check :=
  { name := name, group := group, failText := failText, regex := some regex }

/-! ### Report rendering -/

def passMark : String := "✅"

def warnMark : String := "⚠️"

def failMark : String := "❌"

/-- The detail lines one check contributes inside a non-complete group:
a confirmation for a passed check, the failure text for a failed
non-aggregate check, and one substituted line per offending file for a
failed aggregate check.  The result is `none` when the aggregate's
`failedFiles` was never initialised (the JS code would then throw on
`test.failedFiles.forEach`). -/
def renderCheckLines (s : CheckState) : Option (List String) :=
  if truthy s then some ["    " ++ passMark ++ " " ++ s.check.name]
  else if s.check.aggregate.isSome then
    s.failedFiles.map (fun fs =>
      fs.map (fun file =>
        "    " ++ failMark ++ " " ++ replaceFirst s.check.failText "\x7bfile\x7d" file))
  else some ["    " ++ failMark ++ " " ++ s.check.failText]

/-- Collect the detail lines of every check of a group, propagating a
rendering failure. -/
def collectDetailLines : List CheckState → Option (List (List String))
  | [] => some []
  | s :: rest =>
      match renderCheckLines s, collectDetailLines rest with
      | some ls, some rs => some (ls :: rs)
      | _, _ => none

/-- The status marker of a group line: pass when every member check
passed, fail when every member check failed, warn otherwise. -/
def groupMark (groupTests : List CheckState) : String :=
  if groupTests.all truthy then passMark
  else if groupTests.all (fun t => !(truthy t)) then failMark
  else warnMark

/-- The lines one group contributes to the report: its summary line, and,
unless the whole group passed, the detail lines of every member check. -/
def renderGroup (groupName : String) (groupTests : List CheckState) : Option (List String) :=
  let headerLine := "  " ++ groupMark groupTests ++ " " ++ groupName
  if groupTests.all truthy then some [headerLine]
  else (collectDetailLines groupTests).map (fun detail => headerLine :: detail.flatten)

/-- `new Set(...)` over a list: first-insertion order without duplicates. -/
def setInsertionOrder (l : List String) : List String :=
  l.foldl (fun acc x => if x ∈ acc then acc else acc ++ [x]) []

/-- Render every group block in group order. -/
def collectGroupBlocks (states : List CheckState) : List String → Option (List (List String))
  | [] => some []
  | g :: gs =>
      match renderGroup g (states.filter (fun s => s.check.group == g)),
            collectGroupBlocks states gs with
      | some b, some bs => some (b :: bs)
      | _, _ => none

/-- The whole report: the banner lines followed by every group's block. -/
def renderReport (states : List CheckState) : Option (List String) :=
  (collectGroupBlocks states (setInsertionOrder (states.map (fun s => s.check.group)))).map
    (fun blocks => ["SEO Checker by Jan-Luca Klees", "", "Check Results:"] ++ blocks.flatten)

/-- The action body after file discovery: with no files left the process
prints a warning and exits with code 1 producing no report; otherwise the
scan runs and the report is rendered (`none` inside `ok` models a crash
while rendering). -/
def runMain (tests : List Check) (files : List (String × Option String)) :
    Except Nat (Option (List String)) :=
  if files.isEmpty then Except.error 1
  else Except.ok (renderReport (scanFiles (initStates tests) files))

/-- Modelled from the spec: the detail lines one check contributes inside a
non-complete group, as the report contract words them — a passed check shows
a short confirmation, a failed non-aggregate check its failure message, and
the failed aggregate check one line per offending file with the path
substituted into the template.  Stated for comparison with the source-side
`renderCheckLines`. -/
def specCheckLines (s : CheckState) : List String :=
  if truthy s then ["    " ++ passMark ++ " " ++ s.check.name]
  else if s.check.aggregate.isSome then
    (s.failedFiles.getD []).map (fun file =>
      "    " ++ failMark ++ " " ++ replaceFirst s.check.failText "\x7bfile\x7d" file)
  else ["    " ++ failMark ++ " " ++ s.check.failText]

/-! ### Case equations for the `tests.forEach` body -/

theorem applyCheck_check (file content : String) (s : CheckState) :
    (applyCheck file content s).check = s.check := by
  unfold applyCheck
  split
  · rfl
  · split
    · dsimp only
      split <;> split <;> rfl
    · split
      · rfl
      · split <;> rfl

theorem applyCheck_skip (file content : String) (s : CheckState)
    (hp : s.hasPassed = some true) (hagg : s.check.aggregate = none) :
    applyCheck file content s = s := by
  simp [applyCheck, hp, hagg]

theorem applyCheck_testCallback (file content : String) (s : CheckState)
    (t : String → String → Bool) (hagg : s.check.aggregate = none)
    (ht : s.check.test = some t) (hp : ¬ s.hasPassed = some true) :
    applyCheck file content s = { s with hasPassed := some (t file content) } := by
  simp [applyCheck, hagg, ht, hp]

theorem applyCheck_regexMatch (file content : String) (s : CheckState)
    (r : String → Bool) (hagg : s.check.aggregate = none)
    (ht : s.check.test = none) (hr : s.check.regex = some r)
    (hp : ¬ s.hasPassed = some true) :
    applyCheck file content s = { s with hasPassed := some (r content) } := by
  simp [applyCheck, hagg, ht, hr, hp]

theorem applyCheck_noStrategy (file content : String) (s : CheckState)
    (hagg : s.check.aggregate = none) (ht : s.check.test = none)
    (hr : s.check.regex = none) :
    applyCheck file content s = s := by
  by_cases hp : s.hasPassed = some true <;> simp [applyCheck, hagg, ht, hr, hp]

theorem applyCheck_agg_init_hit (file content : String) (s : CheckState)
    (agg : String → String → Bool) (hagg : s.check.aggregate = some agg)
    (hff : s.failedFiles = none) (ha : agg file content = true) :
    applyCheck file content s =
      { s with hasPassed := some false, failedFiles := some [file] } := by
  simp [applyCheck, hagg, hff, ha]

theorem applyCheck_agg_init_miss (file content : String) (s : CheckState)
    (agg : String → String → Bool) (hagg : s.check.aggregate = some agg)
    (hff : s.failedFiles = none) (ha : agg file content = false) :
    applyCheck file content s =
      { s with hasPassed := some true, failedFiles := some [] } := by
  simp [applyCheck, hagg, hff, ha]

theorem applyCheck_agg_hit (file content : String) (s : CheckState)
    (agg : String → String → Bool) (l : List String)
    (hagg : s.check.aggregate = some agg) (hff : s.failedFiles = some l)
    (ha : agg file content = true) :
    applyCheck file content s =
      { s with hasPassed := some false, failedFiles := some (l ++ [file]) } := by
  simp [applyCheck, hagg, hff, ha]

theorem applyCheck_agg_miss (file content : String) (s : CheckState)
    (agg : String → String → Bool) (l : List String)
    (hagg : s.check.aggregate = some agg) (hff : s.failedFiles = some l)
    (ha : agg file content = false) :
    applyCheck file content s = s := by
  simp [applyCheck, hagg, hff, ha]

/-! ### Fold lemmas -/

theorem scanRead_nil (s : CheckState) : scanRead [] s = s := rfl

theorem scanRead_cons (p : String × String) (pairs : List (String × String))
    (s : CheckState) : scanRead (p :: pairs) s = scanRead pairs (applyCheck p.1 p.2 s) := rfl

theorem scanRead_check (pairs : List (String × String)) (s : CheckState) :
    (scanRead pairs s).check = s.check := by
  induction pairs generalizing s with
  | nil => rfl
  | cons p ps ih => rw [scanRead_cons, ih, applyCheck_check]

theorem runCheckFrom_eq_scanRead (files : List (String × Option String)) (s : CheckState) :
    runCheckFrom files s = scanRead (readables files) s := by
  induction files generalizing s with
  | nil => rfl
  | cons f fs ih =>
      cases f with
      | mk p oc =>
          cases oc with
          | none =>
              have h1 : runCheckFrom ((p, none) :: fs) s = runCheckFrom fs s := rfl
              have h2 : readables ((p, none) :: fs) = readables fs := by
                simp [readables]
              rw [h1, h2, ih]
          | some content =>
              have h1 : runCheckFrom ((p, some content) :: fs) s
                  = runCheckFrom fs (applyCheck p content s) := rfl
              have h2 : readables ((p, some content) :: fs)
                  = (p, content) :: readables fs := by simp [readables]
              rw [h1, h2, ih, scanRead_cons]

theorem runCheck_eq (files : List (String × Option String)) (c : Check) :
    runCheck files c = scanRead (readables files) (CheckState.init c) :=
  runCheckFrom_eq_scanRead files (CheckState.init c)

theorem scanFiles_eq_map (states : List CheckState) (files : List (String × Option String)) :
    scanFiles states files = states.map (runCheckFrom files) := by
  induction files generalizing states with
  | nil =>
      have h : runCheckFrom [] = fun s : CheckState => s := funext (fun _ => rfl)
      rw [h]
      simp [scanFiles]
  | cons f fs ih =>
      cases f with
      | mk p oc =>
          cases oc with
          | none =>
              have hstep : scanFiles states ((p, none) :: fs) = scanFiles states fs := rfl
              have hrun : runCheckFrom ((p, none) :: fs) = runCheckFrom fs :=
                funext (fun _ => rfl)
              rw [hstep, ih, hrun]
          | some content =>
              have hstep : scanFiles states ((p, some content) :: fs)
                  = scanFiles (states.map (applyCheck p content)) fs := rfl
              have hrun : runCheckFrom ((p, some content) :: fs)
                  = fun s => runCheckFrom fs (applyCheck p content s) :=
                funext (fun _ => rfl)
              rw [hstep, ih, List.map_map, hrun]
              rfl

/-! ### Characterization of non-aggregate checks -/

theorem truthy_eq_false (s : CheckState) (hp : ¬ s.hasPassed = some true) :
    truthy s = false := by
  cases h : s.hasPassed with
  | none => simp [truthy, h]
  | some b =>
      cases b with
      | false => simp [truthy, h]
      | true => exact absurd h hp

theorem scanRead_skip (pairs : List (String × String)) (s : CheckState)
    (hagg : s.check.aggregate = none) (hp : s.hasPassed = some true) :
    scanRead pairs s = s := by
  induction pairs with
  | nil => rfl
  | cons p ps ih => rw [scanRead_cons, applyCheck_skip _ _ _ hp hagg, ih]

theorem truthy_scanRead_nonAgg (pairs : List (String × String)) (s : CheckState)
    (hagg : s.check.aggregate = none) :
    truthy (scanRead pairs s)
      = (truthy s || pairs.any (fun p => strategyEval s.check p.1 p.2)) := by
  induction pairs generalizing s with
  | nil => simp [scanRead]
  | cons p ps ih =>
      rw [scanRead_cons]
      by_cases hp : s.hasPassed = some true
      · rw [applyCheck_skip _ _ _ hp hagg, scanRead_skip _ _ hagg hp]
        simp [truthy, hp]
      · have hts : s.hasPassed.getD false = false := truthy_eq_false s hp
        cases ht : s.check.test with
        | some t =>
            rw [applyCheck_testCallback _ _ _ _ hagg ht hp]
            rw [ih { s with hasPassed := some (t p.1 p.2) } hagg]
            simp [truthy, strategyEval, ht, hts]
        | none =>
            cases hr : s.check.regex with
            | some r =>
                rw [applyCheck_regexMatch _ _ _ _ hagg ht hr hp]
                rw [ih { s with hasPassed := some (r p.2) } hagg]
                simp [truthy, strategyEval, ht, hr, hts]
            | none =>
                rw [applyCheck_noStrategy _ _ _ hagg ht hr]
                rw [ih s hagg]
                simp [strategyEval, ht, hr, hts]

theorem truthy_runCheck_nonAgg (files : List (String × Option String)) (c : Check)
    (hagg : c.aggregate = none) :
    truthy (runCheck files c)
      = (readables files).any (fun p => strategyEval c p.1 p.2) := by
  rw [runCheck, runCheckFrom_eq_scanRead]
  rw [truthy_scanRead_nonAgg _ _ hagg]
  simp [truthy, CheckState.init]

theorem scanRead_hasPassed_some (pairs : List (String × String)) (s : CheckState)
    (b : Bool) (hagg : s.check.aggregate = none)
    (hstrat : s.check.test.isSome = true ∨ s.check.regex.isSome = true)
    (hb : s.hasPassed = some b) :
    (scanRead pairs s).hasPassed
      = some (b || pairs.any (fun p => strategyEval s.check p.1 p.2)) := by
  induction pairs generalizing s b with
  | nil => simpa [scanRead] using hb
  | cons p ps ih =>
      rw [scanRead_cons]
      cases b with
      | true =>
          have hp : s.hasPassed = some true := hb
          rw [applyCheck_skip _ _ _ hp hagg, scanRead_skip _ _ hagg hp]
          simp [hp]
      | false =>
          have hp : ¬ s.hasPassed = some true := by simp [hb]
          cases ht : s.check.test with
          | some t =>
              rw [applyCheck_testCallback _ _ _ _ hagg ht hp]
              rw [ih { s with hasPassed := some (t p.1 p.2) } (t p.1 p.2) hagg hstrat rfl]
              simp [strategyEval, ht]
          | none =>
              cases hr : s.check.regex with
              | some r =>
                  rw [applyCheck_regexMatch _ _ _ _ hagg ht hr hp]
                  rw [ih { s with hasPassed := some (r p.2) } (r p.2) hagg hstrat rfl]
                  simp [strategyEval, ht, hr]
              | none =>
                  rcases hstrat with h | h
                  · rw [ht] at h; simp at h
                  · rw [hr] at h; simp at h

theorem runCheck_hasPassed_nonAgg (files : List (String × Option String)) (c : Check)
    (hagg : c.aggregate = none)
    (hstrat : c.test.isSome = true ∨ c.regex.isSome = true) :
    (runCheck files c).hasPassed
      = if readables files = [] then none
        else some ((readables files).any (fun p => strategyEval c p.1 p.2)) := by
  rw [runCheck, runCheckFrom_eq_scanRead]
  cases h : readables files with
  | nil => rfl
  | cons p ps =>
      rw [scanRead_cons]
      have hp : ¬ (CheckState.init c).hasPassed = some true := by
        simp [CheckState.init]
      have hagg0 : (CheckState.init c).check.aggregate = none := hagg
      cases ht : c.test with
      | some t =>
          have ht' : (CheckState.init c).check.test = some t := ht
          rw [applyCheck_testCallback _ _ _ _ hagg0 ht' hp]
          rw [scanRead_hasPassed_some ps
            { CheckState.init c with hasPassed := some (t p.1 p.2) }
            (t p.1 p.2) hagg hstrat rfl]
          simp [strategyEval, ht, CheckState.init]
      | none =>
          cases hr : c.regex with
          | some r =>
              have ht' : (CheckState.init c).check.test = none := ht
              have hr' : (CheckState.init c).check.regex = some r := hr
              rw [applyCheck_regexMatch _ _ _ _ hagg0 ht' hr' hp]
              rw [scanRead_hasPassed_some ps
                { CheckState.init c with hasPassed := some (r p.2) }
                (r p.2) hagg hstrat rfl]
              simp [strategyEval, ht, hr, CheckState.init]
          | none =>
              rcases hstrat with hh | hh
              · rw [ht] at hh; simp at hh
              · rw [hr] at hh; simp at hh

theorem scanRead_noStrategy (pairs : List (String × String)) (s : CheckState)
    (hagg : s.check.aggregate = none) (ht : s.check.test = none)
    (hr : s.check.regex = none) :
    scanRead pairs s = s := by
  induction pairs with
  | nil => rfl
  | cons p ps ih => rw [scanRead_cons, applyCheck_noStrategy _ _ _ hagg ht hr, ih]

theorem applyCheck_failedFiles_nonAgg (file content : String) (s : CheckState)
    (hagg : s.check.aggregate = none) :
    (applyCheck file content s).failedFiles = s.failedFiles := by
  by_cases hp : s.hasPassed = some true
  · rw [applyCheck_skip _ _ _ hp hagg]
  · cases ht : s.check.test with
    | some t => rw [applyCheck_testCallback _ _ _ _ hagg ht hp]
    | none =>
        cases hr : s.check.regex with
        | some r => rw [applyCheck_regexMatch _ _ _ _ hagg ht hr hp]
        | none => rw [applyCheck_noStrategy _ _ _ hagg ht hr]

theorem scanRead_failedFiles_nonAgg (pairs : List (String × String)) (s : CheckState)
    (hagg : s.check.aggregate = none) :
    (scanRead pairs s).failedFiles = s.failedFiles := by
  induction pairs generalizing s with
  | nil => rfl
  | cons p ps ih =>
      rw [scanRead_cons, ih]
      · exact applyCheck_failedFiles_nonAgg _ _ _ hagg
      · rw [applyCheck_check]; exact hagg

/-! ### Characterization of aggregate checks -/

theorem scanRead_agg (pairs : List (String × String)) (s : CheckState)
    (agg : String → String → Bool) (l : List String)
    (hagg : s.check.aggregate = some agg) (hff : s.failedFiles = some l) :
    (scanRead pairs s).failedFiles
        = some (l ++ (pairs.filter (fun p => agg p.1 p.2)).map Prod.fst)
    ∧ (scanRead pairs s).hasPassed
        = if pairs.any (fun p => agg p.1 p.2) then some false else s.hasPassed := by
  induction pairs generalizing s l with
  | nil => simp [scanRead, hff]
  | cons p ps ih =>
      rw [scanRead_cons]
      cases ha : agg p.1 p.2 with
      | true =>
          rw [applyCheck_agg_hit _ _ _ _ _ hagg hff ha]
          have := ih { s with hasPassed := some false, failedFiles := some (l ++ [p.1]) }
            (l ++ [p.1]) hagg rfl
          rw [this.1, this.2]
          constructor
          · simp [List.filter_cons, ha]
          · cases hps : ps.any (fun p => agg p.1 p.2) <;> simp [List.any_cons, ha, hps]
      | false =>
          rw [applyCheck_agg_miss _ _ _ _ _ hagg hff ha]
          have := ih s l hagg hff
          rw [this.1, this.2]
          constructor
          · simp [List.filter_cons, ha]
          · simp only [List.any_cons, ha, Bool.false_or]

theorem runCheck_agg_empty (files : List (String × Option String)) (c : Check)
    (hemp : readables files = []) :
    runCheck files c = CheckState.init c := by
  rw [runCheck, runCheckFrom_eq_scanRead, hemp, scanRead_nil]

theorem runCheck_agg (files : List (String × Option String)) (c : Check)
    (agg : String → String → Bool) (hagg : c.aggregate = some agg)
    (hne : readables files ≠ []) :
    (runCheck files c).failedFiles
        = some (((readables files).filter (fun p => agg p.1 p.2)).map Prod.fst)
    ∧ (runCheck files c).hasPassed
        = some (!(readables files).any (fun p => agg p.1 p.2)) := by
  rw [runCheck, runCheckFrom_eq_scanRead]
  cases h : readables files with
  | nil => exact absurd h hne
  | cons p ps =>
      rw [scanRead_cons]
      have hagg0 : (CheckState.init c).check.aggregate = some agg := hagg
      have hff0 : (CheckState.init c).failedFiles = none := rfl
      cases ha : agg p.1 p.2 with
      | true =>
          rw [applyCheck_agg_init_hit _ _ _ _ hagg0 hff0 ha]
          have := scanRead_agg ps
            { CheckState.init c with hasPassed := some false, failedFiles := some [p.1] }
            agg [p.1] hagg rfl
          rw [this.1, this.2]
          constructor
          · simp [List.filter_cons, ha]
          · cases hps : ps.any (fun p => agg p.1 p.2) <;> simp [List.any_cons, ha, hps]
      | false =>
          rw [applyCheck_agg_init_miss _ _ _ _ hagg0 hff0 ha]
          have := scanRead_agg ps
            { CheckState.init c with hasPassed := some true, failedFiles := some [] }
            agg [] hagg rfl
          rw [this.1, this.2]
          constructor
          · simp [List.filter_cons, ha]
          · cases hps : ps.any (fun p => agg p.1 p.2) <;> simp [List.any_cons, ha, hps]

/-! ### Helper facts about the concrete checks -/

theorem altTagsOffending_eq_any (alts : List (Option String)) :
    altTagsOffending alts = alts.any (fun a => a == none || a == some "") := by
  have gen : ∀ (b : Bool) (l : List (Option String)),
      l.foldl (fun hasMissingAlt alt =>
        if hasMissingAlt then hasMissingAlt
        else alt == none || alt == some "") b
        = (b || l.any (fun a => a == none || a == some "")) := by
    intro b l
    induction l generalizing b with
    | nil => simp
    | cons a as ih =>
        cases b with
        | true => simp [List.foldl_cons, ih]
        | false => simp [List.foldl_cons, ih]
  simpa [altTagsOffending] using gen false alts

theorem readables_paths_sublist (files : List (String × Option String)) :
    ((readables files).map Prod.fst).Sublist (files.map Prod.fst) := by
  induction files with
  | nil => simp [readables]
  | cons f fs ih =>
      obtain ⟨p, oc⟩ := f
      cases oc with
      | none =>
          have h : readables ((p, none) :: fs) = readables fs := by simp [readables]
          rw [h]
          exact ih.cons p
      | some content =>
          have h : readables ((p, some content) :: fs) = (p, content) :: readables fs := by
            simp [readables]
          rw [h]
          exact ih.cons₂ p

/-! ### Claims -/

/-- Claim C1: for every file list with at least one scanned (readable) file,
a non-aggregate check's final passed state is true iff at least one scanned
file satisfies the check's strategy — the regex on the file's content for a
pattern check, the callback on the file's path/content for the Robots.txt and
Frameset callbacks. -/
theorem claim1_non_aggregate_passed_iff (files : List (String × Option String))
    (c : Check) (hagg : c.aggregate = none) (hne : readables files ≠ []) :
    truthy (runCheck files c) = true
      ↔ ∃ p ∈ readables files, strategyEval c p.1 p.2 = true := by
  rw [truthy_runCheck_nonAgg files c hagg]
  simp [List.any_eq_true]

/-- Witness for C1: a single readable robots.txt file makes the Robots.txt
path-predicate check pass. -/
theorem claim1_non_aggregate_passed_iff_witness :
    robotsTxtCheck.aggregate = none
    ∧ readables [("site/robots.txt", some "User-agent: *")] ≠ []
    ∧ (truthy (runCheck [("site/robots.txt", some "User-agent: *")] robotsTxtCheck) = true
        ↔ ∃ p ∈ readables [("site/robots.txt", some "User-agent: *")],
            strategyEval robotsTxtCheck p.1 p.2 = true) :=
  ⟨rfl, by decide,
    claim1_non_aggregate_passed_iff [("site/robots.txt", some "User-agent: *")]
      robotsTxtCheck rfl (by decide)⟩

/-- Claim C3 counterexample: with a clean file scanned before a file whose
content matches the frameset pattern, the Frameset check nevertheless ends
passed — the skip guard freezes it at the first file's result, so "fails
whenever any scanned file contains a frameset tag" is false of the code. -/
theorem claim3_frameset_counterexample :
    ¬ ((∃ p ∈ readables [("a.html", some "<p>hello</p>"), ("b.html", some "<frameset rows>")],
          framesetRegex p.2 = true)
       → truthy (runCheck [("a.html", some "<p>hello</p>"), ("b.html", some "<frameset rows>")]
            framesetCheck) = false) := by
  intro h
  exact absurd (h ⟨("b.html", "<frameset rows>"), by decide, by decide⟩) (by decide)

/-- Claim C3 amended: the Frameset check's final passed state is true iff at
least one scanned file's content does NOT match the frameset pattern
(first-passing-file-wins); hence it fails only when every scanned file
contains a frameset tag, and a frameset in one file does not fail the check
when another scanned file lacks framesets. -/
theorem claim3_frameset_amended (files : List (String × Option String)) :
    truthy (runCheck files framesetCheck) = true
      ↔ ∃ p ∈ readables files, framesetRegex p.2 = false := by
  rw [truthy_runCheck_nonAgg files framesetCheck rfl]
  simp [List.any_eq_true, strategyEval, framesetCheck]

/-- Claim C5: once a non-aggregate check's passed state is true, scanning any
further list of files leaves it true. -/
theorem claim5_monotone_non_aggregate (files : List (String × Option String))
    (s : CheckState) (hagg : s.check.aggregate = none)
    (hp : s.hasPassed = some true) :
    (runCheckFrom files s).hasPassed = some true := by
  rw [runCheckFrom_eq_scanRead, scanRead_skip _ _ hagg hp, hp]

/-- Witness for C5: a passed Frameset check stays passed across a file whose
content contains a frameset tag. -/
theorem claim5_monotone_non_aggregate_witness :
    ({ check := framesetCheck, hasPassed := some true } : CheckState).check.aggregate = none
    ∧ ({ check := framesetCheck, hasPassed := some true } : CheckState).hasPassed = some true
    ∧ (runCheckFrom [("b.html", some "<frameset rows>")]
        { check := framesetCheck, hasPassed := some true }).hasPassed = some true :=
  ⟨rfl, rfl, claim5_monotone_non_aggregate _ _ rfl rfl⟩

/-- Claim C8: a file whose read failed is skipped entirely — the scan of any
file list containing it ends in exactly the states of the same scan without
it, so it contributes no signal to any check and every other file is
processed unchanged. -/
theorem claim8_unreadable_skipped (states : List CheckState)
    (l1 l2 : List (String × Option String)) (f : String × Option String)
    (hf : f.2 = none) :
    scanFiles states (l1 ++ f :: l2) = scanFiles states (l1 ++ l2) := by
  obtain ⟨p, oc⟩ := f
  cases oc with
  | none => simp [scanFiles, List.foldl_append, scanStep]
  | some content => cases hf

/-- Witness for C8: an unreadable file between two readable ones changes
nothing about the Frameset and Alt-Tags states. -/
theorem claim8_unreadable_skipped_witness :
    (("broken.html", (none : Option String)).2 = none)
    ∧ scanFiles (initStates [framesetCheck, altTagsCheck (fun _ => [])])
        ([("a.html", some "x")] ++ ("broken.html", none) :: [("c.html", some "y")])
      = scanFiles (initStates [framesetCheck, altTagsCheck (fun _ => [])])
        ([("a.html", some "x")] ++ [("c.html", some "y")]) :=
  ⟨rfl, claim8_unreadable_skipped _ _ _ _ rfl⟩

/-- Claim C9: the Alt-Tags offending predicate flags a file iff some img
element's alt attribute is absent (`none`) or exactly the empty string; a
whitespace-only alt such as a single space never flags. -/
theorem claim9_alt_predicate (imgAlts : String → List (Option String)) (content : String) :
    ((altTagsCheck imgAlts).aggregate
        = some (fun _file content => altTagsOffending (imgAlts content)))
    ∧ (altTagsOffending (imgAlts content) = true
        ↔ ∃ a ∈ imgAlts content, a = none ∨ a = some "")
    ∧ altTagsOffending [some " "] = false := by
  refine ⟨rfl, ?_, by decide⟩
  rw [altTagsOffending_eq_any]
  simp [List.any_eq_true]

/-- Claim C10: over input files with pairwise distinct paths, the aggregate
offending-file list never contains duplicates. -/
theorem claim10_offending_nodup (files : List (String × Option String)) (c : Check)
    (hnd : (files.map Prod.fst).Nodup) (l : List String)
    (hl : (runCheck files c).failedFiles = some l) : l.Nodup := by
  cases hagg : c.aggregate with
  | none =>
      have h0 : (runCheck files c).failedFiles = none := by
        rw [runCheck, runCheckFrom_eq_scanRead]
        rw [scanRead_failedFiles_nonAgg _ _ hagg]
        rfl
      rw [h0] at hl
      cases hl
  | some agg =>
      by_cases hne : readables files = []
      · rw [runCheck_agg_empty _ _ hne] at hl
        cases hl
      · obtain ⟨hff, _⟩ := runCheck_agg files c agg hagg hne
        rw [hff] at hl
        have hle := Option.some.inj hl
        subst hle
        have h1 : (((readables files).filter (fun p => agg p.1 p.2)).map Prod.fst).Sublist
            ((readables files).map Prod.fst) :=
          ((readables files).filter_sublist).map Prod.fst
        exact ((h1.trans (readables_paths_sublist files)).nodup hnd)

/-- Witness for C10: two distinct paths, one offending, give the
duplicate-free list of that one path. -/
theorem claim10_offending_nodup_witness :
    (([("a.html", some "bad"), ("b.html", some "ok")].map Prod.fst).Nodup
      : Prop)
    ∧ (runCheck [("a.html", some "bad"), ("b.html", some "ok")]
        (altTagsCheck (fun content => if content = "bad" then [none] else []))).failedFiles
        = some ["a.html"]
    ∧ (["a.html"] : List String).Nodup :=
  ⟨by decide, by decide,
    claim10_offending_nodup [("a.html", some "bad"), ("b.html", some "ok")]
      (altTagsCheck (fun content => if content = "bad" then [none] else []))
      (by decide) ["a.html"] (by decide)⟩

/-- A permutation leaves `List.any` unchanged. -/
theorem perm_any_eq {α : Type} {l1 l2 : List α} (h : l1.Perm l2) (f : α → Bool) :
    l1.any f = l2.any f := by
  cases hb : l1.any f with
  | true =>
      symm
      rw [List.any_eq_true] at hb ⊢
      obtain ⟨x, hx, hfx⟩ := hb
      exact ⟨x, h.mem_iff.1 hx, hfx⟩
  | false =>
      symm
      rw [List.any_eq_false] at hb ⊢
      intro x hx
      exact hb x (h.mem_iff.2 hx)

/-- Claim C2 counterexample: with a single (unreadable) file and hence zero
scanned files, the Alt-Tags offending list stays uninitialised (`none`, not
the empty list) and the final passed state is falsy although the sublist of
offending scanned files is empty — so the claimed equivalence fails on a
run with no readable file. -/
theorem claim2_aggregate_counterexample :
    (runCheck [("a.html", (none : Option String))]
        (altTagsCheck (fun _ => []))).failedFiles = none
    ∧ ¬ (truthy (runCheck [("a.html", (none : Option String))]
          (altTagsCheck (fun _ => []))) = true
        ↔ ((readables [("a.html", (none : Option String))]).filter
            (fun p => altTagsOffending ((fun _ : String => ([] : List (Option String))) p.2))).map
            Prod.fst = []) := by
  constructor
  · rfl
  · decide

/-- Claim C2 amended: for every file list with at least one readable scanned
file, the Alt-Tags check's offending-file list equals exactly the ordered
sublist of scanned files its offending predicate flags (in scan order), and
its final passed state is true iff that list is empty.  (With no readable
file both stay unset, as the counterexample shows.) -/
theorem claim2_aggregate_offending_list (files : List (String × Option String))
    (imgAlts : String → List (Option String)) (hne : readables files ≠ []) :
    (runCheck files (altTagsCheck imgAlts)).failedFiles
        = some (((readables files).filter
            (fun p => altTagsOffending (imgAlts p.2))).map Prod.fst)
    ∧ (truthy (runCheck files (altTagsCheck imgAlts)) = true
        ↔ ((readables files).filter
            (fun p => altTagsOffending (imgAlts p.2))).map Prod.fst = []) := by
  obtain ⟨hff, hhp⟩ := runCheck_agg files (altTagsCheck imgAlts)
      (fun _file content => altTagsOffending (imgAlts content)) rfl hne
  refine ⟨hff, ?_⟩
  simp only [truthy, hhp, Option.getD_some]
  simp [List.any_eq_false, List.filter_eq_nil_iff, List.map_eq_nil_iff]

/-- Witness for C2 (amended): one offending and one clean readable file give
exactly the offending file's path, and the check fails. -/
theorem claim2_aggregate_offending_list_witness :
    (readables [("a.html", some "bad"), ("b.html", some "ok")] ≠ [])
    ∧ ((runCheck [("a.html", some "bad"), ("b.html", some "ok")]
          (altTagsCheck (fun content => if content = "bad" then [none] else []))).failedFiles
        = some (((readables [("a.html", some "bad"), ("b.html", some "ok")]).filter
            (fun p => altTagsOffending
              ((fun content => if content = "bad" then [none] else []) p.2))).map Prod.fst)
        ∧ (truthy (runCheck [("a.html", some "bad"), ("b.html", some "ok")]
              (altTagsCheck (fun content => if content = "bad" then [none] else []))) = true
            ↔ ((readables [("a.html", some "bad"), ("b.html", some "ok")]).filter
                (fun p => altTagsOffending
                  ((fun content => if content = "bad" then [none] else []) p.2))).map
                Prod.fst = [])) :=
  ⟨by decide,
    claim2_aggregate_offending_list [("a.html", some "bad"), ("b.html", some "ok")]
      (fun content => if content = "bad" then [none] else []) (by decide)⟩

/-- Claim C4: scanning a permutation of the file list gives every check the
same final passed state; an aggregate check's offending lists of the two
runs are permutations of each other, each being the flagged scanned files in
its own run's scan order. -/
theorem claim4_order_independent (files1 files2 : List (String × Option String))
    (h : files1.Perm files2) (c : Check) :
    (runCheck files1 c).hasPassed = (runCheck files2 c).hasPassed
    ∧ ((runCheck files1 c).failedFiles.getD []).Perm
        ((runCheck files2 c).failedFiles.getD [])
    ∧ ((runCheck files1 c).failedFiles = none ↔ (runCheck files2 c).failedFiles = none)
    ∧ (∀ agg, c.aggregate = some agg → readables files1 ≠ [] →
        (runCheck files1 c).failedFiles
          = some (((readables files1).filter (fun p => agg p.1 p.2)).map Prod.fst)
        ∧ (runCheck files2 c).failedFiles
          = some (((readables files2).filter (fun p => agg p.1 p.2)).map Prod.fst)) := by
  have hperm : (readables files1).Perm (readables files2) := by
    unfold readables
    exact h.filterMap _
  have hnil : readables files1 = [] ↔ readables files2 = [] := by
    constructor
    · intro e; exact (e ▸ hperm).symm.eq_nil
    · intro e; exact (e ▸ hperm.symm).symm.eq_nil
  cases hagg : c.aggregate with
  | none =>
      have hff1 : (runCheck files1 c).failedFiles = none := by
        rw [runCheck, runCheckFrom_eq_scanRead, scanRead_failedFiles_nonAgg _ _ hagg]; rfl
      have hff2 : (runCheck files2 c).failedFiles = none := by
        rw [runCheck, runCheckFrom_eq_scanRead, scanRead_failedFiles_nonAgg _ _ hagg]; rfl
      refine ⟨?_, by rw [hff1, hff2], by rw [hff1, hff2], ?_⟩
      · by_cases hstrat : c.test.isSome = true ∨ c.regex.isSome = true
        · rw [runCheck_hasPassed_nonAgg _ _ hagg hstrat,
              runCheck_hasPassed_nonAgg _ _ hagg hstrat]
          by_cases he : readables files1 = []
          · rw [if_pos he, if_pos (hnil.1 he)]
          · rw [if_neg he, if_neg (fun e => he (hnil.2 e)),
                perm_any_eq hperm (fun p => strategyEval c p.1 p.2)]
        · push_neg at hstrat
          obtain ⟨ht, hr⟩ := hstrat
          have ht' : c.test = none := by
            cases hh : c.test with
            | none => rfl
            | some t => rw [hh] at ht; simp at ht
          have hr' : c.regex = none := by
            cases hh : c.regex with
            | none => rfl
            | some r => rw [hh] at hr; simp at hr
          rw [runCheck, runCheckFrom_eq_scanRead, scanRead_noStrategy _ _ hagg ht' hr',
              runCheck, runCheckFrom_eq_scanRead, scanRead_noStrategy _ _ hagg ht' hr']
      · intro agg hc
        exact Option.noConfusion hc
  | some agg =>
      by_cases hne : readables files1 = []
      · have hne2 : readables files2 = [] := hnil.1 hne
        rw [runCheck_agg_empty _ _ hne, runCheck_agg_empty _ _ hne2]
        refine ⟨rfl, by simp, by simp, ?_⟩
        intro agg' _ hne1
        exact absurd hne hne1
      · have hne2 : readables files2 ≠ [] := fun e => hne (hnil.2 e)
        obtain ⟨hff1, hhp1⟩ := runCheck_agg files1 c agg hagg hne
        obtain ⟨hff2, hhp2⟩ := runCheck_agg files2 c agg hagg hne2
        refine ⟨?_, ?_, by rw [hff1, hff2]; simp, ?_⟩
        · rw [hhp1, hhp2, perm_any_eq hperm (fun p => agg p.1 p.2)]
        · rw [hff1, hff2]
          exact ((hperm.filter (fun p => agg p.1 p.2)).map Prod.fst)
        · intro agg' hc _
          have hae : agg = agg' := Option.some.inj hc
          subst hae
          exact ⟨hff1, hff2⟩

/-- Witness for C4: swapping two files leaves the Frameset check's state
equal and the (absent) offending lists trivially permuted. -/
theorem claim4_order_independent_witness :
    ([("a.html", some "<frameset x>"), ("b.html", (some "y" : Option String))].Perm
      [("b.html", some "y"), ("a.html", some "<frameset x>")])
    ∧ ((runCheck [("a.html", some "<frameset x>"), ("b.html", some "y")] framesetCheck).hasPassed
        = (runCheck [("b.html", some "y"), ("a.html", some "<frameset x>")] framesetCheck).hasPassed
      ∧ ((runCheck [("a.html", some "<frameset x>"), ("b.html", some "y")]
            framesetCheck).failedFiles.getD []).Perm
          ((runCheck [("b.html", some "y"), ("a.html", some "<frameset x>")]
            framesetCheck).failedFiles.getD [])
      ∧ ((runCheck [("a.html", some "<frameset x>"), ("b.html", some "y")]
            framesetCheck).failedFiles = none
          ↔ (runCheck [("b.html", some "y"), ("a.html", some "<frameset x>")]
              framesetCheck).failedFiles = none)
      ∧ (∀ agg, framesetCheck.aggregate = some agg
          → readables [("a.html", some "<frameset x>"), ("b.html", some "y")] ≠ []
          → (runCheck [("a.html", some "<frameset x>"), ("b.html", some "y")]
                framesetCheck).failedFiles
              = some (((readables [("a.html", some "<frameset x>"), ("b.html", some "y")]).filter
                  (fun p => agg p.1 p.2)).map Prod.fst)
            ∧ (runCheck [("b.html", some "y"), ("a.html", some "<frameset x>")]
                framesetCheck).failedFiles
              = some (((readables [("b.html", some "y"), ("a.html", some "<frameset x>")]).filter
                  (fun p => agg p.1 p.2)).map Prod.fst))) :=
  ⟨by decide,
    claim4_order_independent _ _ (by decide) framesetCheck⟩

/-- Claim C6: the run exits with code 1 and no report exactly when the file
list left after globbing and ignore filtering is empty; with at least one
file the scan and the report rendering proceed. -/
theorem claim6_no_input_exit (tests : List Check) (files : List (String × Option String)) :
    (runMain tests files = Except.error 1 ↔ files = [])
    ∧ (files ≠ [] →
        runMain tests files
          = Except.ok (renderReport (scanFiles (initStates tests) files))) := by
  cases files with
  | nil => simp [runMain]
  | cons f fs => simp [runMain]

/-- Witness for C6: one readable file proceeds to evaluation and report. -/
theorem claim6_no_input_exit_witness :
    ([("a.html", (some "x" : Option String))] ≠ ([] : List (String × Option String)))
    ∧ runMain [framesetCheck] [("a.html", some "x")]
        = Except.ok (renderReport (scanFiles (initStates [framesetCheck])
            [("a.html", some "x")])) :=
  ⟨by decide,
    (claim6_no_input_exit [framesetCheck] [("a.html", some "x")]).2 (by decide)⟩

/-! ### Report rendering facts -/

theorem renderCheckLines_eq_spec (s : CheckState)
    (hinit : s.check.aggregate.isSome = true → truthy s = false →
      s.failedFiles.isSome = true) :
    renderCheckLines s = some (specCheckLines s) := by
  cases ht : truthy s with
  | true => simp [renderCheckLines, specCheckLines, ht]
  | false =>
      cases ha : s.check.aggregate.isSome with
      | true =>
          obtain ⟨fs, hfs⟩ := Option.isSome_iff_exists.1 (hinit ha ht)
          simp [renderCheckLines, specCheckLines, ht, ha, hfs]
      | false => simp [renderCheckLines, specCheckLines, ht, ha]

theorem collectDetailLines_eq_spec (ms : List CheckState)
    (hinit : ∀ s ∈ ms, s.check.aggregate.isSome = true → truthy s = false →
      s.failedFiles.isSome = true) :
    collectDetailLines ms = some (ms.map specCheckLines) := by
  induction ms with
  | nil => rfl
  | cons s rest ih =>
      have h1 := renderCheckLines_eq_spec s (hinit s (List.mem_cons_self s rest))
      have h2 := ih (fun x hx => hinit x (List.mem_cons_of_mem s hx))
      simp [collectDetailLines, h1, h2]

/-- Claim C7: a group's status marker is the pass mark iff every member
check passed and the fail mark iff every member check failed (the warn mark
exactly in the mixed case); a fully passed group renders only its summary
line, while any other group renders the summary line followed, for each
member check in order, by its detail lines — a confirmation for a passed
check, the failure message for a failed non-aggregate check, and one line
per offending file with the path substituted for the failed aggregate
check. -/
theorem claim7_group_rendering (g : String) (ms : List CheckState) (hne : ms ≠ [])
    (hinit : ∀ s ∈ ms, s.check.aggregate.isSome = true → truthy s = false →
      s.failedFiles.isSome = true) :
    (groupMark ms = passMark ↔ ∀ s ∈ ms, truthy s = true)
    ∧ (groupMark ms = failMark ↔ ∀ s ∈ ms, truthy s = false)
    ∧ (groupMark ms = warnMark
        ↔ ((∃ s ∈ ms, truthy s = true) ∧ ∃ s ∈ ms, truthy s = false))
    ∧ ((∀ s ∈ ms, truthy s = true) →
        renderGroup g ms = some ["  " ++ passMark ++ " " ++ g])
    ∧ (¬ (∀ s ∈ ms, truthy s = true) →
        renderGroup g ms
          = some (("  " ++ groupMark ms ++ " " ++ g)
              :: (ms.map specCheckLines).flatten)) := by
  obtain ⟨m, rest, rfl⟩ : ∃ m rest, ms = m :: rest := by
    cases ms with
    | nil => exact absurd rfl hne
    | cons m rest => exact ⟨m, rest, rfl⟩
  by_cases hA : (m :: rest).all truthy = true
  · have hall : ∀ s ∈ m :: rest, truthy s = true := List.all_eq_true.1 hA
    have hmark : groupMark (m :: rest) = passMark := by simp [groupMark, hA]
    refine ⟨⟨fun _ => hall, fun _ => hmark⟩, ?_, ?_, ?_, ?_⟩
    · constructor
      · intro hm
        rw [hmark] at hm
        exact absurd hm (by decide)
      · intro hf
        have := hall m (List.mem_cons_self m rest)
        rw [hf m (List.mem_cons_self m rest)] at this
        cases this
    · constructor
      · intro hm
        rw [hmark] at hm
        exact absurd hm (by decide)
      · rintro ⟨-, s, hs, hfs⟩
        rw [hall s hs] at hfs
        cases hfs
    · intro _
      simp [renderGroup, hA, hmark]
    · intro hcon
      exact absurd hall hcon
  · have hnall : ¬ ∀ s ∈ m :: rest, truthy s = true :=
      fun hh => hA (List.all_eq_true.2 hh)
    have hrender : renderGroup g (m :: rest)
        = some (("  " ++ groupMark (m :: rest) ++ " " ++ g)
            :: ((m :: rest).map specCheckLines).flatten) := by
      rw [renderGroup]
      rw [collectDetailLines_eq_spec _ hinit]
      simp [hA]
    by_cases hB : (m :: rest).all (fun t => !(truthy t)) = true
    · have hallf : ∀ s ∈ m :: rest, truthy s = false := by
        intro s hs
        have := List.all_eq_true.1 hB s hs
        simpa using this
      have hmark : groupMark (m :: rest) = failMark := by simp [groupMark, hA, hB]
      refine ⟨?_, ⟨fun _ => hallf, fun _ => hmark⟩, ?_, ?_, fun _ => hrender⟩
      · constructor
        · intro hm
          rw [hmark] at hm
          exact absurd hm (by decide)
        · intro hh
          exact absurd hh hnall
      · constructor
        · intro hm
          rw [hmark] at hm
          exact absurd hm (by decide)
        · rintro ⟨⟨s, hs, hts⟩, -⟩
          rw [hallf s hs] at hts
          cases hts
      · intro hh
        exact absurd hh hnall
    · have hmark : groupMark (m :: rest) = warnMark := by simp [groupMark, hA, hB]
      have hsomet : ∃ s ∈ m :: rest, truthy s = true := by
        have := List.all_eq_false.1 (by
          cases hb : (m :: rest).all (fun t => !(truthy t)) with
          | true => exact absurd hb hB
          | false => rfl)
        obtain ⟨s, hs, hns⟩ := this
        refine ⟨s, hs, ?_⟩
        simpa using hns
      have hsomef : ∃ s ∈ m :: rest, truthy s = false := by
        have := List.all_eq_false.1 (by
          cases hb : (m :: rest).all truthy with
          | true => exact absurd hb hA
          | false => rfl)
        obtain ⟨s, hs, hns⟩ := this
        refine ⟨s, hs, ?_⟩
        cases hts : truthy s with
        | true => exact absurd hts hns
        | false => rfl
      refine ⟨?_, ?_, ⟨fun _ => ⟨hsomet, hsomef⟩, fun _ => hmark⟩, ?_, fun _ => hrender⟩
      · constructor
        · intro hm
          rw [hmark] at hm
          exact absurd hm (by decide)
        · intro hh
          exact absurd hh hnall
      · constructor
        · intro hm
          rw [hmark] at hm
          exact absurd hm (by decide)
        · intro hallf
          obtain ⟨s, hs, hts⟩ := hsomet
          rw [hallf s hs] at hts
          cases hts
      · intro hh
        exact absurd hh hnall

/-- Witness for C7: a group with one passed and one failed (non-aggregate)
check gets the warn marker, and exactly because a passed and a failed
member both exist. -/
theorem claim7_group_rendering_witness :
    (([{ check := robotsTxtCheck, hasPassed := some true },
       { check := framesetCheck, hasPassed := some false }] : List CheckState) ≠ [])
    ∧ (∀ s ∈ ([{ check := robotsTxtCheck, hasPassed := some true },
         { check := framesetCheck, hasPassed := some false }] : List CheckState),
        s.check.aggregate.isSome = true → truthy s = false → s.failedFiles.isSome = true)
    ∧ (groupMark [{ check := robotsTxtCheck, hasPassed := some true },
         { check := framesetCheck, hasPassed := some false }] = warnMark
        ↔ ((∃ s ∈ ([{ check := robotsTxtCheck, hasPassed := some true },
              { check := framesetCheck, hasPassed := some false }] : List CheckState),
              truthy s = true)
           ∧ ∃ s ∈ ([{ check := robotsTxtCheck, hasPassed := some true },
              { check := framesetCheck, hasPassed := some false }] : List CheckState),
              truthy s = false)) :=
  by
  have hinit : ∀ s ∈ ([{ check := robotsTxtCheck, hasPassed := some true },
       { check := framesetCheck, hasPassed := some false }] : List CheckState),
      s.check.aggregate.isSome = true → truthy s = false → s.failedFiles.isSome = true := by
    intro s hs h1 h2
    rcases List.mem_cons.1 hs with rfl | hs2
    · exact absurd h1 (by decide)
    · rcases List.mem_cons.1 hs2 with rfl | hs3
      · exact absurd h1 (by decide)
      · cases hs3
  refine ⟨by simp, hinit, ?_⟩
  exact (claim7_group_rendering "Misc"
      [{ check := robotsTxtCheck, hasPassed := some true },
       { check := framesetCheck, hasPassed := some false }]
      (by simp) hinit).2.2.1
